import Mathlib

/-!
Verification development for the WCLApi repository (`WCLApi/Warcraftlogs.py`).

The Python class `WCLApi` is shallowly embedded here:

* Python scalar values that appear as request parameters become `PyVal`
  (`str` is applied when a value is embedded into a cache file name).
* `dict` objects used for query parameters become association lists
  (`Params`) with `updA` modelling `dict.update` for a single key
  (replace in place when present, append otherwise) and `lookupA`
  modelling key lookup.
* The on-disk query cache becomes `FS`: a flag for `os.path.isdir` of the
  query directory plus an association list from file name to content.  A
  file content either parses as a value (`Content.val`) or is malformed
  (`Content.malformed`, on which `json.load` raises).
* One HTTP response becomes `Resp` (status code plus parsed JSON body).
  The environment is a function `Nat → Resp _` giving the server's answer
  to each successive physical HTTP attempt.
* `self.http.get` becomes `http_get`: the retrying adapter (`retryFetch`,
  modelled from the spec, see its doc comment) followed by the
  `raise_for_status` response hook installed in `WCLApi.__init__`
  (line 35 of the source), which raises `requests.HTTPError` for any
  status in [400, 600).
* Exceptions become the `Except` monad with error type `WErr`.
* The unbounded `while` loops of `get_report_events` and
  `get_encounter_rankings` become fuel-indexed recursions returning
  `Option`; `none` means the fuel ran out while the Python loop would
  still be running.
-/

/-- A Python scalar value as it occurs among WCLApi request parameters. -/
inductive PyVal where
  | pint (n : Int)
  | pstr (s : String)
  | pbool (b : Bool)
deriving DecidableEq, Repr

/-- Python `str()` of an `int`. -/
def pyIntStr (n : Int) : String :=
  if n < 0 then "-" ++ Nat.repr n.natAbs else Nat.repr n.natAbs

/-- Python `str()` of a scalar (`str(True) = "True"`). -/
def pyStr : PyVal → String
  | .pint n => pyIntStr n
  | .pstr s => s
  | .pbool b => if b then "True" else "False"

/-- A Python `dict` of request parameters, in insertion order. -/
abbrev Params := List (String × PyVal)

/-- `d.update({k : v})` for one key: replace the value in place if the key
is present, append the pair otherwise (Python dicts keep insertion order
and `update` does not move an existing key). -/
def updA {β : Type} (ps : List (String × β)) (k : String) (v : β) : List (String × β) :=
  if ps.any (fun p => p.1 = k) then
    ps.map (fun p => if p.1 = k then (k, v) else p)
  else
    ps ++ [(k, v)]

/-- `if x is not None: d.update({k : x})`. -/
def updIf {β : Type} (ps : List (String × β)) (k : String) : Option β → List (String × β)
  | none => ps
  | some v => updA ps k v

/-- Key lookup in an association list (first match). -/
def lookupA {β : Type} (ps : List (String × β)) (k : String) : Option β :=
  match ps with
  | [] => none
  | p :: rest => if p.1 = k then some p.2 else lookupA rest k

theorem lookupA_map_upd {β : Type} (v : β) (k : String) :
    ∀ ps : List (String × β),
      lookupA (ps.map (fun p => if p.1 = k then (k, v) else p)) k =
        if ps.any (fun p => p.1 = k) then some v else lookupA ps k := by
  intro ps
  induction ps with
  | nil => simp [lookupA]
  | cons p rest ih =>
    by_cases h : p.1 = k
    · simp [lookupA, List.any_cons, h]
    · simp only [List.any_cons, decide_eq_false h, Bool.false_or]
      simp [lookupA, h, ih]

theorem lookupA_map_upd_ne {β : Type} (v : β) (k k' : String) (hne : k ≠ k') :
    ∀ ps : List (String × β),
      lookupA (ps.map (fun p => if p.1 = k' then (k', v) else p)) k = lookupA ps k := by
  intro ps
  have hne' : ¬(k' = k) := fun h => hne h.symm
  induction ps with
  | nil => simp [lookupA]
  | cons p rest ih =>
    by_cases h : p.1 = k'
    · have hpk : ¬(p.1 = k) := by rw [h]; exact hne'
      simp [lookupA, h, hpk, hne', ih]
    · by_cases h2 : p.1 = k
      · simp [lookupA, h, h2, hne]
      · simp [lookupA, h, h2, ih]

theorem lookupA_append_single {β : Type} (v : β) (k : String) :
    ∀ ps : List (String × β),
      lookupA (ps ++ [(k, v)]) k =
        match lookupA ps k with
        | some w => some w
        | none => some v := by
  intro ps
  induction ps with
  | nil => simp [lookupA]
  | cons p rest ih =>
    by_cases h : p.1 = k
    · simp [lookupA, h]
    · simp [lookupA, h, ih]

theorem lookupA_append_single_ne {β : Type} (v : β) (k k' : String) (hne : k ≠ k') :
    ∀ ps : List (String × β),
      lookupA (ps ++ [(k', v)]) k = lookupA ps k := by
  intro ps
  have hne' : ¬(k' = k) := fun h => hne h.symm
  induction ps with
  | nil => simp [lookupA, hne']
  | cons p rest ih =>
    by_cases h : p.1 = k
    · simp [lookupA, h]
    · simp [lookupA, h, ih]

theorem lookupA_none_of_not_any {β : Type} (k : String) :
    ∀ ps : List (String × β), ps.any (fun p => p.1 = k) = false → lookupA ps k = none := by
  intro ps
  induction ps with
  | nil => intro _; rfl
  | cons p rest ih =>
    intro h
    rw [List.any_cons, Bool.or_eq_false_iff] at h
    obtain ⟨h1, h2⟩ := h
    have h1' : ¬(p.1 = k) := of_decide_eq_false h1
    rw [lookupA, if_neg h1']
    exact ih h2

/-- `lookupA` after `updA` at the updated key. -/
theorem lookupA_updA_self {β : Type} (ps : List (String × β)) (k : String) (v : β) :
    lookupA (updA ps k v) k = some v := by
  unfold updA
  by_cases h : ps.any (fun p => p.1 = k) = true
  · rw [if_pos h, lookupA_map_upd, if_pos h]
  · have hf : ps.any (fun p => p.1 = k) = false := Bool.eq_false_iff.mpr h
    rw [if_neg h, lookupA_append_single, lookupA_none_of_not_any k ps hf]

/-- `lookupA` after `updA` at a different key. -/
theorem lookupA_updA_ne {β : Type} (ps : List (String × β)) (k k' : String) (v : β)
    (hne : k ≠ k') : lookupA (updA ps k' v) k = lookupA ps k := by
  unfold updA
  by_cases h : ps.any (fun p => p.1 = k')
  · rw [if_pos h, lookupA_map_upd_ne v k k' hne]
  · rw [if_neg h, lookupA_append_single_ne v k k' hne]

/-- `lookupA` after `updIf` at a different key. -/
theorem lookupA_updIf_ne {β : Type} (ps : List (String × β)) (k k' : String)
    (o : Option β) (hne : k ≠ k') : lookupA (updIf ps k' o) k = lookupA ps k := by
  cases o with
  | none => rfl
  | some v => exact lookupA_updA_ne ps k k' v hne

/-- One HTTP response: status code plus parsed JSON body (of the shape the
respective endpoint returns). -/
structure Resp (α : Type) where
  status : Nat
  body : α
deriving DecidableEq, Repr

/-- The errors a `WCLApi` method can raise, as far as the claims are
concerned.

* `httpStatusError s`: `requests.exceptions.HTTPError` raised by the
  `raise_for_status` response hook installed on the session in
  `WCLApi.__init__` (source line 35).
* `authTokenError`: `ConnectionError("Renew authorization token.")`.
* `requestFailedError s`: `ConnectionError("Request failed with code s and
  message : ... for endpoint: ...")`.
* `jsonDecodeError`: the `json.JSONDecodeError` (a `ValueError`) that
  `json.load` raises on a malformed cache file in `load_saved_query`.
* `attrError`: the `AttributeError` Python would raise evaluating
  `resp.status_code` when `resp` still holds its initial non-response
  value; unreachable because the pagination loops always perform at least
  one request. -/
inductive WErr where
  | httpStatusError (status : Nat)
  | authTokenError
  | requestFailedError (status : Nat)
  | jsonDecodeError
  | attrError
deriving DecidableEq, Repr

/-- The retryable statuses configured in `WCLApi.__init__`:
`Retry(total=6, backoff_factor=1, status_forcelist=[429, 500, 502, 503, 504])`. -/
def retryableStatuses : List Nat := [429, 500, 502, 503, 504]

/-- Modelled from the spec: the retrying transport.  The adapter that
performs retries is `TimeoutHttpAdapter` (repository file
`WCLApi/TimeoutHttpAdapter.py`), which is imported by `Warcraftlogs.py`
but not part of the sources given; only its configuration
(`Retry(total=6, backoff_factor=1, status_forcelist=[429, 500, 502, 503,
504])`, source lines 36-38) is.  Per spec §4.2 the transport makes at
most 6 total attempts, retries exactly the statuses in the forcelist,
returns a non-retryable response immediately, and on exhausting retries
"surfaces the last observed outcome (not a synthesized one)".
`server n` is the server's answer to the n-th physical attempt;
`retryFetch server attemptsLeft idx` returns the index after the attempts
consumed together with the surfaced response. -/
def retryFetch {α : Type} (server : Nat → Resp α) : Nat → Nat → Nat × Resp α
  | 0, idx => (idx + 1, server idx)
  | 1, idx => (idx + 1, server idx)
  | Nat.succ (Nat.succ n), idx =>
    if (server idx).status ∈ retryableStatuses then
      retryFetch server (Nat.succ n) (idx + 1)
    else
      (idx + 1, server idx)

/-- `self.http.get(...)`: the retrying transport (bound 6, spec-modelled,
see `retryFetch`) followed by the `raise_for_status` response hook of
source line 35, which raises `requests.HTTPError` for any status code in
[400, 600).  Returns the next physical attempt index and either the
surviving response or the raised error. -/
def http_get {α : Type} (server : Nat → Resp α) (idx : Nat) :
    Nat × Except WErr (Resp α) :=
  let r := retryFetch server 6 idx
  if 400 ≤ r.2.status ∧ r.2.status < 600 then
    (r.1, .error (.httpStatusError r.2.status))
  else
    (r.1, .ok r.2)

/-- Truthiness of a `requests.Response` (`if resp:`): `Response.__bool__`
returns `self.ok`, which is `False` exactly when `raise_for_status` would
raise, i.e. for status codes in [400, 600). -/
def respTruthy {α : Type} (r : Resp α) : Bool :=
  if 400 ≤ r.status ∧ r.status < 600 then false else true

/-- Content of one cache file: either text that parses as a value
(`json.load` succeeds) or malformed text (`json.load` raises). -/
inductive Content (α : Type) where
  | val (a : α)
  | malformed
deriving DecidableEq

/-- The on-disk state seen by the query cache: whether
`os.path.isdir(self.query_dir)` holds, and the files in that directory
(file name to content).  The payload type `α` is the type of the values
stored (JSON round-trips faithfully on the payloads the client stores, so
file text that parses is represented by the parsed value itself). -/
structure FS (α : Type) where
  dirExists : Bool
  files : List (String × Content α)
deriving DecidableEq

/-- The arguments of `get_report_events` that take part in parameter and
cache-key construction, with the types the docstring declares.  `self`,
`endpoint`, and the authentication key are transport-only and excluded
from the cache key by `make_file_name` itself.  Optional arguments model
the Python default `None` as `none`. -/
structure EventsArgs where
  view : String
  report_code : String
  start_time : Option Int
  end_time : Option Int
  hostility : Option Int
  sourceid : Option Int
  sourceinstance : Option Int
  sourceclass : Option String
  targetid : Option Int
  targetinstance : Option Int
  targetclass : Option String
  abilityid : Option Int
  death : Option Int
  options : Option Int
  cutoff : Option Int
  encounter : Option Int
  wipes : Option Int
  filter_exp : Option String
  translate : Option Bool
deriving DecidableEq, Repr

/-- The optional arguments of `get_report_events` in declaration order
(`argspec.args` order, which `make_file_name` iterates), as Python
values. -/
def eventsOptVals (a : EventsArgs) : List (Option PyVal) :=
  [a.start_time.map .pint, a.end_time.map .pint, a.hostility.map .pint,
   a.sourceid.map .pint, a.sourceinstance.map .pint, a.sourceclass.map .pstr,
   a.targetid.map .pint, a.targetinstance.map .pint, a.targetclass.map .pstr,
   a.abilityid.map .pint, a.death.map .pint, a.options.map .pint,
   a.cutoff.map .pint, a.encounter.map .pint, a.wipes.map .pint,
   a.filter_exp.map .pstr, a.translate.map .pbool]

/-- All parameter values of a `get_report_events` call (operation subject
and discriminator first, then the optional arguments in declaration
order).  Two calls have "the same parameter values" iff their
`paramsVec`s are equal. -/
def paramsVec (a : EventsArgs) : List (Option PyVal) :=
  some (.pstr a.view) :: some (.pstr a.report_code) :: eventsOptVals a

/-- Python `'_'.join` on a list of strings. -/
def joinUnderscore : List String → String
  | [] => ""
  | [s] => s
  | s :: t :: rest => s ++ "_" ++ joinUnderscore (t :: rest)

/-- The components `make_file_name` joins with `'_'`:
`[argspec.locals['report_code']] + [str(v) for each non-None optional
argument in declaration order] + [argspec.locals['view']]` (`self`,
`endpoint`, `report_code` and `view` are excluded from the middle list). -/
def nameComponents (a : EventsArgs) : List String :=
  a.report_code :: (((eventsOptVals a).filterMap id).map pyStr ++ [a.view])

/-- `WCLApi.make_file_name(argspec, query)` (source lines 515-523):
`f"wcl_{query}_{arg_str}.json"` with `arg_str` the underscore-join of
`nameComponents`. -/
def make_file_name (query : String) (a : EventsArgs) : String :=
  "wcl_" ++ query ++ "_" ++ joinUnderscore (nameComponents a) ++ ".json"

/-- `WCLApi.load_saved_query(query, argspec)` (source lines 497-505):
returns `None` when the cache directory or the file is missing, the
parsed content when the file parses, and raises (`.error`) when
`json.load` fails on a malformed file. -/
def load_saved_query {α : Type} (fs : FS α) (query : String) (a : EventsArgs) :
    Except WErr (Option α) :=
  let f_name := make_file_name query a
  if fs.dirExists then
    match lookupA fs.files f_name with
    | some (.val c) => .ok (some c)
    | some .malformed => .error .jsonDecodeError
    | none => .ok none
  else
    .ok none

/-- `WCLApi.save_query(query, argspec, cont)` (source lines 507-513):
creates the cache directory if absent and writes `cont` to the file named
by `make_file_name`, overwriting unconditionally. -/
def save_query {α : Type} (fs : FS α) (query : String) (a : EventsArgs) (cont : α) :
    FS α :=
  { dirExists := true,
    files := updA fs.files (make_file_name query a) (.val cont) }

/-- Character-level version of `joinUnderscore`. -/
def joinChars : List (List Char) → List Char
  | [] => []
  | [s] => s
  | s :: t :: rest => s ++ '_' :: joinChars (t :: rest)

theorem joinUnderscore_data :
    ∀ l : List String, (joinUnderscore l).data = joinChars (l.map String.data) := by
  intro l
  match l with
  | [] => rfl
  | [s] => rfl
  | s :: t :: rest =>
    show ((s ++ "_") ++ joinUnderscore (t :: rest)).data = _
    rw [String.data_append, String.data_append, joinUnderscore_data (t :: rest)]
    show s.data ++ ['_'] ++ _ = s.data ++ '_' :: _
    simp [List.append_assoc]

/-- Splitting at the first separator: if neither `a` nor `b` contains
`'_'`, then `a ++ '_' :: r1 = b ++ '_' :: r2` forces `a = b` and
`r1 = r2`. -/
theorem append_sep_inj :
    ∀ (a b r1 r2 : List Char), '_' ∉ a → '_' ∉ b →
      a ++ '_' :: r1 = b ++ '_' :: r2 → a = b ∧ r1 = r2 := by
  intro a
  induction a with
  | nil =>
    intro b r1 r2 _ hb h
    cases b with
    | nil => simpa using h
    | cons c b2 =>
      simp only [List.nil_append, List.cons_append, List.cons.injEq] at h
      exact absurd (by simp [← h.1]) hb
  | cons c a2 ih =>
    intro b r1 r2 ha hb h
    cases b with
    | nil =>
      simp only [List.cons_append, List.nil_append, List.cons.injEq] at h
      exact absurd (by simp [h.1]) ha
    | cons d b2 =>
      simp only [List.cons_append, List.cons.injEq] at h
      have ha2 : '_' ∉ a2 := fun hm => ha (List.mem_cons_of_mem c hm)
      have hb2 : '_' ∉ b2 := fun hm => hb (List.mem_cons_of_mem d hm)
      obtain ⟨h1, h2⟩ := ih b2 r1 r2 ha2 hb2 h.2
      exact ⟨by rw [h.1, h1], h2⟩

/-- `joinChars` is injective on lists of equal length whose components
are free of the separator character. -/
theorem joinChars_inj :
    ∀ l1 l2 : List (List Char), l1.length = l2.length →
      (∀ s ∈ l1, '_' ∉ s) → (∀ s ∈ l2, '_' ∉ s) →
      joinChars l1 = joinChars l2 → l1 = l2 := by
  intro l1
  match l1 with
  | [] =>
    intro l2 hlen _ _ _
    cases l2 with
    | nil => rfl
    | cons b t2 => simp at hlen
  | [s] =>
    intro l2 hlen h1 _ hj
    match l2 with
    | [] => simp at hlen
    | [t] => rw [show joinChars [s] = s from rfl, show joinChars [t] = t from rfl] at hj; rw [hj]
    | t :: u :: t2 =>
      exfalso
      simp only [List.length_cons, List.length_nil] at hlen
      omega
  | s :: s2 :: t1 =>
    intro l2 hlen h1 h2 hj
    match l2 with
    | [] => simp at hlen
    | [t] =>
      exfalso
      simp only [List.length_cons, List.length_nil] at hlen
      omega
    | t :: u :: t2 =>
      rw [show joinChars (s :: s2 :: t1) = s ++ '_' :: joinChars (s2 :: t1) from rfl,
          show joinChars (t :: u :: t2) = t ++ '_' :: joinChars (u :: t2) from rfl] at hj
      have hs : '_' ∉ s := h1 s (List.mem_cons_self s _)
      have ht : '_' ∉ t := h2 t (List.mem_cons_self t _)
      obtain ⟨hst, hrest⟩ := append_sep_inj s t _ _ hs ht hj
      have hlen2 : (s2 :: t1).length = (u :: t2).length := by
        simp only [List.length_cons] at hlen ⊢; omega
      have h1' : ∀ x ∈ s2 :: t1, '_' ∉ x := fun x hx => h1 x (List.mem_cons_of_mem s hx)
      have h2' : ∀ x ∈ u :: t2, '_' ∉ x := fun x hx => h2 x (List.mem_cons_of_mem t hx)
      have := joinChars_inj (s2 :: t1) (u :: t2) hlen2 h1' h2' hrest
      rw [hst, this]

/-- `joinUnderscore` is injective on lists of equal length whose
components contain no underscore. -/
theorem joinUnderscore_inj (l1 l2 : List String) (hlen : l1.length = l2.length)
    (h1 : ∀ s ∈ l1, '_' ∉ s.data) (h2 : ∀ s ∈ l2, '_' ∉ s.data)
    (hj : joinUnderscore l1 = joinUnderscore l2) : l1 = l2 := by
  have hd : joinChars (l1.map String.data) = joinChars (l2.map String.data) := by
    rw [← joinUnderscore_data, ← joinUnderscore_data, hj]
  have hlen' : (l1.map String.data).length = (l2.map String.data).length := by
    simpa using hlen
  have h1' : ∀ s ∈ l1.map String.data, '_' ∉ s := by
    intro s hs
    obtain ⟨x, hx, rfl⟩ := List.mem_map.mp hs
    exact h1 x hx
  have h2' : ∀ s ∈ l2.map String.data, '_' ∉ s := by
    intro s hs
    obtain ⟨x, hx, rfl⟩ := List.mem_map.mp hs
    exact h2 x hx
  have := joinChars_inj (l1.map String.data) (l2.map String.data) hlen' h1' h2' hd
  exact List.map_injective_iff.mpr (fun s t h => String.ext h) this

/-- Equal `make_file_name` results have equal underscore-joins: the fixed
surroundings `"wcl_" ++ query ++ "_"` and `".json"` cancel. -/
theorem make_file_name_eq_join (query : String) (a b : EventsArgs)
    (h : make_file_name query a = make_file_name query b) :
    joinUnderscore (nameComponents a) = joinUnderscore (nameComponents b) := by
  unfold make_file_name at h
  have hd := congrArg String.data h
  simp only [String.data_append, List.append_assoc] at hd
  have hl := List.append_cancel_left (List.append_cancel_left (List.append_cancel_left hd))
  exact String.ext (List.append_cancel_right hl)

theorem omap_pint_inj {x y : Option Int}
    (h : x.map PyVal.pint = y.map PyVal.pint) : x = y := by
  cases x <;> cases y <;> simp_all

theorem omap_pstr_inj {x y : Option String}
    (h : x.map PyVal.pstr = y.map PyVal.pstr) : x = y := by
  cases x <;> cases y <;> simp_all

theorem omap_pbool_inj {x y : Option Bool}
    (h : x.map PyVal.pbool = y.map PyVal.pbool) : x = y := by
  cases x <;> cases y <;> simp_all

/-- Two `get_report_events` calls with the same parameter values are the
same call: `paramsVec` determines `EventsArgs`. -/
theorem paramsVec_inj {a b : EventsArgs} (h : paramsVec a = paramsVec b) : a = b := by
  cases a
  cases b
  simp only [paramsVec, eventsOptVals, List.cons.injEq, Option.some.injEq,
    PyVal.pstr.injEq, and_true] at h
  obtain ⟨h1, h2, h3, h4, h5, h6, h7, h8, h9, h10, h11, h12, h13, h14, h15, h16,
    h17, h18, h19⟩ := h
  simp only [EventsArgs.mk.injEq]
  exact ⟨h1, h2, omap_pint_inj h3, omap_pint_inj h4, omap_pint_inj h5,
    omap_pint_inj h6, omap_pint_inj h7, omap_pstr_inj h8, omap_pint_inj h9,
    omap_pint_inj h10, omap_pstr_inj h11, omap_pint_inj h12, omap_pint_inj h13,
    omap_pint_inj h14, omap_pint_inj h15, omap_pint_inj h16, omap_pint_inj h17,
    omap_pstr_inj h18, omap_pbool_inj h19⟩

/-- The initial query-parameter dict built by `get_report_events` (source
lines 202-222): each non-`None` optional argument in order, then the
authentication key.  Note `filter_exp` is sent under the wire name
`filter`. -/
def eventsParams (a : EventsArgs) (api_key : String) : Params :=
  let ps : Params := []
  let ps := updIf ps "start" (a.start_time.map .pint)
  let ps := updIf ps "end" (a.end_time.map .pint)
  let ps := updIf ps "hostility" (a.hostility.map .pint)
  let ps := updIf ps "sourceid" (a.sourceid.map .pint)
  let ps := updIf ps "sourceinstance" (a.sourceinstance.map .pint)
  let ps := updIf ps "sourceclass" (a.sourceclass.map .pstr)
  let ps := updIf ps "targetid" (a.targetid.map .pint)
  let ps := updIf ps "targetinstance" (a.targetinstance.map .pint)
  let ps := updIf ps "targetclass" (a.targetclass.map .pstr)
  let ps := updIf ps "abilityid" (a.abilityid.map .pint)
  let ps := updIf ps "death" (a.death.map .pint)
  let ps := updIf ps "options" (a.options.map .pint)
  let ps := updIf ps "cutoff" (a.cutoff.map .pint)
  let ps := updIf ps "encounter" (a.encounter.map .pint)
  let ps := updIf ps "wipes" (a.wipes.map .pint)
  let ps := updIf ps "filter" (a.filter_exp.map .pstr)
  let ps := updIf ps "translate" (a.translate.map .pbool)
  updA ps "api_key" (.pstr api_key)

/-- The JSON body shape `get_report_events` consumes: the `events` array
(elements are opaque to the client; instantiated with `Int` here) and the
optional `nextPageTimestamp` field. -/
structure EventsPage where
  events : List Int
  nextPageTimestamp : Option Int
deriving DecidableEq, Repr

/-- `cont['events'] += resp_json['events']` when `cont` is not `None`,
otherwise `cont = resp.json()` (source lines 236-239). -/
def mergeCont : Option EventsPage → EventsPage → Option EventsPage
  | some c, pg => some { c with events := c.events ++ pg.events }
  | none, pg => some pg

/-- `next_timestamp = resp_json['nextPageTimestamp']` with the
`KeyError` handler setting `0` when the field is absent (source lines
241-244). -/
def nextTsOf (pg : EventsPage) : Int :=
  match pg.nextPageTimestamp with
  | some t => t
  | none => 0

/-- `if next_timestamp > 0: params.update({'start' : next_timestamp})`
(source lines 229-230). -/
def updStart (params : Params) (nextTs : Int) : Params :=
  if 0 < nextTs then updA params "start" (.pint nextTs) else params

/-- How the `while` loop of `get_report_events` ended: `exited` for a
normal exit (`next_timestamp == 0`) or a `break` on a non-200 response,
`raised` when an exception propagated out of `self.http.get` (the
`raise_for_status` hook). -/
inductive LoopExit where
  | exited (cont : Option EventsPage) (lastResp : Option (Resp EventsPage))
  | raised (e : WErr)
deriving DecidableEq, Repr

/-- Result of running the `get_report_events` loop: how it ended, the
parameter dicts of the issued logical requests in order, and the next
physical attempt index (= total number of physical HTTP attempts when
starting from 0). -/
structure LoopOut where
  exit : LoopExit
  reqs : List Params
  idx : Nat
deriving DecidableEq, Repr

/-- The `while next_timestamp != 0` loop of `get_report_events` (source
lines 224-246), fuel-indexed.  State: `cont` (merged payload so far,
`None` before the first page), `nextTs` (`next_timestamp`, initially
`-1`), `params`, plus the request log, attempt index and the last
response (`resp`, initially the falsy `''`, modelled `none`).  Returns
`none` when the fuel is exhausted with the loop still running. -/
def eventsLoop (server : Nat → Resp EventsPage) (fuel : Nat)
    (cont : Option EventsPage) (nextTs : Int) (params : Params)
    (reqs : List Params) (idx : Nat) (lastResp : Option (Resp EventsPage)) :
    Option LoopOut :=
  if nextTs = 0 then
    some ⟨.exited cont lastResp, reqs, idx⟩
  else
    match fuel with
    | 0 => none
    | fuel + 1 =>
      match http_get server idx with
      | (idx', .error e) =>
        some ⟨.raised e, reqs ++ [updStart params nextTs], idx'⟩
      | (idx', .ok resp) =>
        if resp.status = 200 then
          eventsLoop server fuel (mergeCont cont resp.body) (nextTsOf resp.body)
            (updStart params nextTs) (reqs ++ [updStart params nextTs]) idx' (some resp)
        else
          some ⟨.exited cont (some resp), reqs ++ [updStart params nextTs], idx'⟩

/-- The code after the loop in `get_report_events` (source lines
248-258): `if resp:` (truthiness of the response), then the 200 branch
(save to cache and return), the 401 branch, and the final
`ConnectionError`.  Returns the result together with the possibly
updated cache state. -/
def eventsFinish (fs : FS EventsPage) (a : EventsArgs) (out : LoopOut) :
    Except WErr (Option EventsPage) × FS EventsPage × List Params × Nat :=
  match out.exit with
  | .raised e => (.error e, fs, out.reqs, out.idx)
  | .exited cont lastResp =>
    match lastResp with
    | none => (.error .attrError, fs, out.reqs, out.idx)
    | some resp =>
      if respTruthy resp then
        if resp.status = 200 then
          match cont with
          | some c => (.ok (some c), save_query fs "events" a c, out.reqs, out.idx)
          | none => (.ok none, fs, out.reqs, out.idx)
        else if resp.status = 401 then
          (.error .authTokenError, fs, out.reqs, out.idx)
        else
          (.error (.requestFailedError resp.status), fs, out.reqs, out.idx)
      else
        (.error (.requestFailedError resp.status), fs, out.reqs, out.idx)

/-- `WCLApi.get_report_events` (source lines 135-258): consult the cache
via `load_saved_query` (propagating a `json.load` failure, returning the
cached payload on a hit with no transport call), otherwise build the
parameter dict, run the pagination loop, and post-process via
`eventsFinish`.  Result: the returned payload or raised error, the cache
state afterwards, the parameter dicts of the issued requests, and the
number of physical HTTP attempts. -/
def get_report_events (api_key : String) (a : EventsArgs) (fs : FS EventsPage)
    (server : Nat → Resp EventsPage) (fuel : Nat) :
    Option (Except WErr (Option EventsPage) × FS EventsPage × List Params × Nat) :=
  match load_saved_query fs "events" a with
  | .error e => some (.error e, fs, [], 0)
  | .ok (some cont) => some (.ok (some cont), fs, [], 0)
  | .ok none =>
    (eventsLoop server fuel none (-1) (eventsParams a api_key) [] 0 none).map
      (eventsFinish fs a)

/-- The arguments of `get_encounter_rankings` with the types the
docstring declares.  `metric` has Python default `'speed'` and
`include_combatant_info` has default `False`; all other optional
arguments default to `None`. -/
structure RankingsArgs where
  encounter_id : Int
  metric : Option String
  size : Option String
  difficulty : Option String
  partition : Option Int
  game_class : Option Int
  spec : Option Int
  bracket : Option Int
  server : Option String
  region : Option String
  page : Option Int
  limit : Option Int
  filter : Option String
  include_combatant_info : Bool
deriving DecidableEq, Repr

/-- A `get_encounter_rankings` call with every optional argument left at
its declared default: `metric='speed'`, `include_combatant_info=False`,
everything else `None`. -/
def defaultRankingsArgs (encounter_id : Int) : RankingsArgs :=
  { encounter_id := encounter_id, metric := some "speed", size := none,
    difficulty := none, partition := none, game_class := none, spec := none,
    bracket := none, server := none, region := none, page := none,
    limit := none, filter := none, include_combatant_info := false }

/-- The query-parameter dict built by `get_encounter_rankings` (source
lines 406-422).  Every optional argument is guarded by `is not None`;
`game_class` is sent as `class`; `include_combatant_info` is a `bool`
(per its declaration and default `False`), so its `is not None` guard is
always true and `includeCombatantInfo` is always added. -/
def rankingsParams (ra : RankingsArgs) (api_key : String) : Params :=
  let ps : Params := []
  let ps := updIf ps "metric" (ra.metric.map .pstr)
  let ps := updIf ps "size" (ra.size.map .pstr)
  let ps := updIf ps "difficulty" (ra.difficulty.map .pstr)
  let ps := updIf ps "partition" (ra.partition.map .pint)
  let ps := updIf ps "class" (ra.game_class.map .pint)
  let ps := updIf ps "spec" (ra.spec.map .pint)
  let ps := updIf ps "bracket" (ra.bracket.map .pint)
  let ps := updIf ps "server" (ra.server.map .pstr)
  let ps := updIf ps "region" (ra.region.map .pstr)
  let ps := updIf ps "page" (ra.page.map .pint)
  let ps := updIf ps "limit" (ra.limit.map .pint)
  let ps := updIf ps "filter" (ra.filter.map .pstr)
  let ps := updA ps "includeCombatantInfo" (.pbool ra.include_combatant_info)
  updA ps "api_key" (.pstr api_key)

/-- The JSON body shape `get_encounter_rankings` consumes: the
`rankings` array (elements opaque, instantiated with `Int`), the
`hasMorePages` flag and the server-supplied `page` number. -/
structure RankingsPage where
  rankings : List Int
  hasMorePages : Bool
  page : Int
deriving DecidableEq, Repr

/-- How the rankings loop ended (mirror of `LoopExit`). -/
inductive RLoopExit where
  | exited (cont : Option RankingsPage) (lastResp : Option (Resp RankingsPage))
  | raised (e : WErr)
deriving DecidableEq, Repr

/-- Result of the rankings loop: exit plus next physical attempt index. -/
structure RLoopOut where
  exit : RLoopExit
  idx : Nat
deriving DecidableEq, Repr

/-- The `while next_page` loop of `get_encounter_rankings` (source lines
426-445), fuel-indexed: on a 200 response merge the `rankings` array,
take `next_page` from `hasMorePages` and set the `page` parameter to the
server-supplied `page + 1`; `break` on any other surviving response;
exceptions from `http_get` propagate. -/
def rankingsLoop (server : Nat → Resp RankingsPage) (fuel : Nat)
    (cont : Option RankingsPage) (next_page : Bool) (params : Params)
    (idx : Nat) (lastResp : Option (Resp RankingsPage)) : Option RLoopOut :=
  if next_page = false then
    some ⟨.exited cont lastResp, idx⟩
  else
    match fuel with
    | 0 => none
    | fuel + 1 =>
      let r := http_get server idx
      match r.2 with
      | .error e => some ⟨.raised e, r.1⟩
      | .ok resp =>
        if resp.status = 200 then
          let rj := resp.body
          let cont' := match cont with
            | some c => some { c with rankings := c.rankings ++ rj.rankings }
            | none => some rj
          rankingsLoop server fuel cont' rj.hasMorePages
            (updA params "page" (.pint (rj.page + 1))) r.1 (some resp)
        else
          some ⟨.exited cont (some resp), r.1⟩

/-- The code after the rankings loop (source lines 447-456): `if resp:`,
the 200 branch (return the merged payload, no cache write), the 401
branch and the final `ConnectionError`. -/
def rankingsFinish (out : RLoopOut) : Except WErr (Option RankingsPage) :=
  match out.exit with
  | .raised e => .error e
  | .exited cont lastResp =>
    match lastResp with
    | none => .error .attrError
    | some resp =>
      if respTruthy resp then
        if resp.status = 200 then .ok cont
        else if resp.status = 401 then .error .authTokenError
        else .error (.requestFailedError resp.status)
      else
        .error (.requestFailedError resp.status)

/-- `WCLApi.get_encounter_rankings` (source lines 356-456): builds the
parameter dict and drives the page-number pagination loop.  The method
contains no call to `load_saved_query` or `save_query`, so the cache
state `fs` is passed through untouched and the result does not depend on
it. -/
def get_encounter_rankings {β : Type} (api_key : String) (ra : RankingsArgs)
    (fs : FS β) (server : Nat → Resp RankingsPage) (fuel : Nat) :
    Option (Except WErr (Option RankingsPage) × FS β × Nat) :=
  let params := rankingsParams ra api_key
  (rankingsLoop server fuel none true params 0 none).map
    (fun out => (rankingsFinish out, fs, out.idx))

/-- The shared tail of the single-shot operations (source e.g. lines
83-92): `if resp.status_code == 200: return resp.json()`, `if
resp.status_code == 401: raise ConnectionError("Renew authorization
token.")`, otherwise the generic `ConnectionError`. -/
def singleFinish {α : Type} (res : Except WErr (Resp α)) : Except WErr α :=
  match res with
  | .error e => .error e
  | .ok resp =>
    if resp.status = 200 then .ok resp.body
    else if resp.status = 401 then .error .authTokenError
    else .error (.requestFailedError resp.status)

/-- The parameter dict of `get_guild_reports` (source lines 75-79):
`api_key` first, then the optional `start`/`end`. -/
def guildReportsParams (api_key : String) (start_time end_time : Option Int) : Params :=
  let ps := updA ([] : Params) "api_key" (.pstr api_key)
  let ps := updIf ps "start" (start_time.map .pint)
  updIf ps "end" (end_time.map .pint)

/-- `WCLApi.get_guild_reports` (source lines 41-92): single-shot, no
cache interaction (`fs` passed through untouched).  Returns the result,
the cache state, the number of physical attempts and the parameter dict
sent. -/
def get_guild_reports {α β : Type} (api_key server_name server_region guild_name : String)
    (start_time end_time : Option Int) (fs : FS β) (server : Nat → Resp α) :
    Except WErr α × FS β × Nat × Params :=
  let params := guildReportsParams api_key start_time end_time
  let r := http_get server 0
  (singleFinish r.2, fs, r.1, params)

/-- `WCLApi.get_report_fights` (source lines 94-133): single-shot, no
cache interaction; the only parameter is `api_key`. -/
def get_report_fights {α β : Type} (api_key report_code : String)
    (fs : FS β) (server : Nat → Resp α) : Except WErr α × FS β × Nat × Params :=
  let params := updA ([] : Params) "api_key" (.pstr api_key)
  let r := http_get server 0
  (singleFinish r.2, fs, r.1, params)

/-- The arguments of `get_report_tables` that become query parameters
(source lines 260-278). -/
structure TablesArgs where
  view : String
  report_code : String
  start_time : Option Int
  end_time : Option Int
  hostility : Option Int
  by_group : Option String
  sourceid : Option Int
  sourceinstance : Option Int
  sourceclass : Option String
  targetid : Option Int
  targetinstance : Option Int
  targetclass : Option String
  abilityid : Option Int
  options : Option Int
  cutoff : Option Int
  encounter : Option Int
  wipes : Option Int
  filter_exp : Option String
  translate : Option Bool
deriving DecidableEq, Repr

/-- The parameter dict of `get_report_tables` (source lines 323-341);
note the wire names `start_time`/`end_time` (unlike `get_report_events`,
which sends `start`/`end`), `by` for `by_group`, and `filter` for
`filter_exp`. -/
def tablesParams (ta : TablesArgs) (api_key : String) : Params :=
  let ps : Params := []
  let ps := updIf ps "start_time" (ta.start_time.map .pint)
  let ps := updIf ps "end_time" (ta.end_time.map .pint)
  let ps := updIf ps "hostility" (ta.hostility.map .pint)
  let ps := updIf ps "by" (ta.by_group.map .pstr)
  let ps := updIf ps "sourceid" (ta.sourceid.map .pint)
  let ps := updIf ps "sourceinstance" (ta.sourceinstance.map .pint)
  let ps := updIf ps "sourceclass" (ta.sourceclass.map .pstr)
  let ps := updIf ps "targetid" (ta.targetid.map .pint)
  let ps := updIf ps "targetinstance" (ta.targetinstance.map .pint)
  let ps := updIf ps "targetclass" (ta.targetclass.map .pstr)
  let ps := updIf ps "abilityid" (ta.abilityid.map .pint)
  let ps := updIf ps "options" (ta.options.map .pint)
  let ps := updIf ps "cutoff" (ta.cutoff.map .pint)
  let ps := updIf ps "encounter" (ta.encounter.map .pint)
  let ps := updIf ps "wipes" (ta.wipes.map .pint)
  let ps := updIf ps "filter" (ta.filter_exp.map .pstr)
  let ps := updIf ps "translate" (ta.translate.map .pbool)
  updA ps "api_key" (.pstr api_key)

/-- `WCLApi.get_report_tables` (source lines 260-354): single-shot, no
cache interaction. -/
def get_report_tables {α β : Type} (api_key : String) (ta : TablesArgs)
    (fs : FS β) (server : Nat → Resp α) : Except WErr α × FS β × Nat × Params :=
  let params := tablesParams ta api_key
  let r := http_get server 0
  (singleFinish r.2, fs, r.1, params)

/-- `WCLApi.get_zones` (source lines 458-495): single-shot, no cache
interaction; the parameter dict stays empty (the source never adds
`api_key` here). -/
def get_zones {α β : Type} (fs : FS β) (server : Nat → Resp α) :
    Except WErr α × FS β × Nat × Params :=
  let params : Params := []
  let r := http_get server 0
  (singleFinish r.2, fs, r.1, params)

theorem retryFetch_not_retryable {α : Type} (server : Nat → Resp α) (idx : Nat)
    (h : (server idx).status ∉ retryableStatuses) :
    ∀ n, retryFetch server (n + 1) idx = (idx + 1, server idx) := by
  intro n
  cases n with
  | zero => rfl
  | succ m =>
    show retryFetch server (Nat.succ (Nat.succ m)) idx = _
    rw [retryFetch, if_neg h]

/-- A 200 status is not in the retry forcelist. -/
theorem status200_not_retryable {α : Type} (r : Resp α) (h : r.status = 200) :
    r.status ∉ retryableStatuses := by
  rw [h]; decide

theorem http_get_ok {α : Type} (server : Nat → Resp α) (idx : Nat)
    (h : (server idx).status ∉ retryableStatuses)
    (hs : ¬(400 ≤ (server idx).status ∧ (server idx).status < 600)) :
    http_get server idx = (idx + 1, .ok (server idx)) := by
  unfold http_get
  rw [show (6 : Nat) = 5 + 1 from rfl, retryFetch_not_retryable server idx h]
  simp [hs]

theorem http_get_raise {α : Type} (server : Nat → Resp α) (idx : Nat)
    (h : (server idx).status ∉ retryableStatuses)
    (hs : 400 ≤ (server idx).status ∧ (server idx).status < 600) :
    http_get server idx = (idx + 1, .error (.httpStatusError (server idx).status)) := by
  unfold http_get
  rw [show (6 : Nat) = 5 + 1 from rfl, retryFetch_not_retryable server idx h]
  simp [hs]

theorem eventsLoop_exit (server : Nat → Resp EventsPage) (fuel : Nat)
    (cont : Option EventsPage) (params : Params) (reqs : List Params) (idx : Nat)
    (lastResp : Option (Resp EventsPage)) :
    eventsLoop server fuel cont 0 params reqs idx lastResp =
      some ⟨.exited cont lastResp, reqs, idx⟩ := by
  unfold eventsLoop
  rw [if_pos rfl]

theorem eventsLoop_fuel_out (server : Nat → Resp EventsPage)
    (cont : Option EventsPage) (nextTs : Int) (params : Params)
    (reqs : List Params) (idx : Nat) (lastResp : Option (Resp EventsPage))
    (h : nextTs ≠ 0) :
    eventsLoop server 0 cont nextTs params reqs idx lastResp = none := by
  unfold eventsLoop
  rw [if_neg h]

theorem eventsLoop_step_raise (server : Nat → Resp EventsPage) (fuel : Nat)
    (cont : Option EventsPage) (nextTs : Int) (params : Params)
    (reqs : List Params) (idx idx' : Nat) (lastResp : Option (Resp EventsPage))
    (e : WErr) (h : nextTs ≠ 0) (hr : http_get server idx = (idx', .error e)) :
    eventsLoop server (fuel + 1) cont nextTs params reqs idx lastResp =
      some ⟨.raised e, reqs ++ [updStart params nextTs], idx'⟩ := by
  unfold eventsLoop
  rw [if_neg h, hr]

theorem eventsLoop_step_200 (server : Nat → Resp EventsPage) (fuel : Nat)
    (cont : Option EventsPage) (nextTs : Int) (params : Params)
    (reqs : List Params) (idx idx' : Nat) (lastResp : Option (Resp EventsPage))
    (resp : Resp EventsPage) (h : nextTs ≠ 0)
    (hr : http_get server idx = (idx', .ok resp)) (h200 : resp.status = 200) :
    eventsLoop server (fuel + 1) cont nextTs params reqs idx lastResp =
      eventsLoop server fuel (mergeCont cont resp.body) (nextTsOf resp.body)
        (updStart params nextTs) (reqs ++ [updStart params nextTs]) idx' (some resp) := by
  conv_lhs => unfold eventsLoop
  rw [if_neg h, hr]
  simp only [if_pos h200]

theorem eventsLoop_step_break (server : Nat → Resp EventsPage) (fuel : Nat)
    (cont : Option EventsPage) (nextTs : Int) (params : Params)
    (reqs : List Params) (idx idx' : Nat) (lastResp : Option (Resp EventsPage))
    (resp : Resp EventsPage) (h : nextTs ≠ 0)
    (hr : http_get server idx = (idx', .ok resp)) (hne : resp.status ≠ 200) :
    eventsLoop server (fuel + 1) cont nextTs params reqs idx lastResp =
      some ⟨.exited cont (some resp), reqs ++ [updStart params nextTs], idx'⟩ := by
  unfold eventsLoop
  rw [if_neg h, hr]
  simp only [if_neg hne]

/-- A "successful continuing page": status 200 with a present, nonzero
`nextPageTimestamp`, so the loop issues another request after it. -/
def goodPage (r : Resp EventsPage) : Prop :=
  r.status = 200 ∧ r.body.nextPageTimestamp ≠ none ∧ r.body.nextPageTimestamp ≠ some 0

instance (r : Resp EventsPage) : Decidable (goodPage r) := by
  unfold goodPage; infer_instance

/-- A "failing page": a response whose status is neither 200 nor in the
retry forcelist (so the transport surfaces it unchanged and the loop does
not treat it as a page). -/
def failPage (r : Resp EventsPage) : Prop :=
  r.status ≠ 200 ∧ r.status ∉ retryableStatuses

instance (r : Resp EventsPage) : Decidable (failPage r) := by
  unfold failPage; infer_instance

/-- A "terminal page": not retryable, and either non-200 or a 200 page
whose `nextPageTimestamp` is absent or zero — after it the loop stops. -/
def endPage (r : Resp EventsPage) : Prop :=
  r.status ∉ retryableStatuses ∧
    (r.status ≠ 200 ∨ r.body.nextPageTimestamp = none ∨ r.body.nextPageTimestamp = some 0)

instance (r : Resp EventsPage) : Decidable (endPage r) := by
  unfold endPage; infer_instance

theorem goodPage_not_hook (r : Resp EventsPage) (hg : goodPage r) :
    ¬(400 ≤ r.status ∧ r.status < 600) := by
  rw [hg.1]; omega

theorem goodPage_nextTs_ne (r : Resp EventsPage) (hg : goodPage r) :
    nextTsOf r.body ≠ 0 := by
  obtain ⟨-, hne, hnz⟩ := hg
  cases hts : r.body.nextPageTimestamp with
  | none => exact absurd hts hne
  | some t =>
    have ht : nextTsOf r.body = t := by unfold nextTsOf; rw [hts]
    rw [ht]
    intro h0
    exact hnz (by rw [hts, h0])

/-- If `N` good pages are followed by a failing page, the loop stops with
the `N+1`-st logical request: either the `raise_for_status` hook raised,
or the loop broke with that response (which then survived the hook, i.e.
its status is outside [400, 600)).  The accumulated attempt index and
request log grow by exactly `N + 1`. -/
theorem eventsLoop_fail_after (server : Nat → Resp EventsPage) :
    ∀ (N fuel : Nat) (cont : Option EventsPage) (nextTs : Int) (params : Params)
      (reqs : List Params) (idx : Nat) (lastResp : Option (Resp EventsPage)),
      nextTs ≠ 0 → N + 1 ≤ fuel →
      (∀ i, i < N → goodPage (server (idx + i))) → failPage (server (idx + N)) →
      ∃ out, eventsLoop server fuel cont nextTs params reqs idx lastResp = some out ∧
        out.idx = idx + N + 1 ∧ out.reqs.length = reqs.length + N + 1 ∧
        ((∃ e, out.exit = .raised e) ∨
         (∃ c, out.exit = .exited c (some (server (idx + N))) ∧
            ¬(400 ≤ (server (idx + N)).status ∧ (server (idx + N)).status < 600))) := by
  intro N
  induction N with
  | zero =>
    intro fuel cont nextTs params reqs idx lastResp hne hfuel _ hfail
    obtain ⟨f, rfl⟩ : ∃ f, fuel = f + 1 := ⟨fuel - 1, by omega⟩
    rw [show idx + 0 = idx from rfl] at hfail
    by_cases hh : 400 ≤ (server idx).status ∧ (server idx).status < 600
    · refine ⟨⟨.raised (.httpStatusError (server idx).status),
        reqs ++ [updStart params nextTs], idx + 1⟩, ?_, rfl, by simp, ?_⟩
      · exact eventsLoop_step_raise server f cont nextTs params reqs idx (idx + 1)
          lastResp _ hne (http_get_raise server idx hfail.2 hh)
      · exact Or.inl ⟨_, rfl⟩
    · refine ⟨⟨.exited cont (some (server idx)),
        reqs ++ [updStart params nextTs], idx + 1⟩, ?_, rfl, by simp, ?_⟩
      · exact eventsLoop_step_break server f cont nextTs params reqs idx (idx + 1)
          lastResp _ hne (http_get_ok server idx hfail.2 hh) hfail.1
      · exact Or.inr ⟨cont, by rw [show idx + 0 = idx from rfl], by
          rw [show idx + 0 = idx from rfl]; exact hh⟩
  | succ N ih =>
    intro fuel cont nextTs params reqs idx lastResp hne hfuel hgood hfail
    obtain ⟨f, rfl⟩ : ∃ f, fuel = f + 1 := ⟨fuel - 1, by omega⟩
    have hg0 : goodPage (server idx) := by
      have := hgood 0 (by omega)
      rwa [show idx + 0 = idx from rfl] at this
    have hr : http_get server idx = (idx + 1, .ok (server idx)) :=
      http_get_ok server idx (status200_not_retryable _ hg0.1) (goodPage_not_hook _ hg0)
    rw [eventsLoop_step_200 server f cont nextTs params reqs idx (idx + 1) lastResp
      (server idx) hne hr hg0.1]
    have hgood' : ∀ i, i < N → goodPage (server (idx + 1 + i)) := by
      intro i hi
      have := hgood (i + 1) (by omega)
      rwa [show idx + (i + 1) = idx + 1 + i by omega] at this
    have hfail' : failPage (server (idx + 1 + N)) := by
      rwa [show idx + 1 + N = idx + (N + 1) by omega]
    obtain ⟨out, hout, hidx, hreqs, hexit⟩ := ih f (mergeCont cont (server idx).body)
      (nextTsOf (server idx).body) (updStart params nextTs)
      (reqs ++ [updStart params nextTs]) (idx + 1) (some (server idx))
      (goodPage_nextTs_ne _ hg0) (by omega) hgood' hfail'
    refine ⟨out, hout, by omega, by simp at hreqs ⊢; omega, ?_⟩
    rwa [show idx + 1 + N = idx + (N + 1) by omega] at hexit

/-- If `N` good pages are followed by a terminal page, the loop finishes
within `N + 1` iterations. -/
theorem eventsLoop_term_after (server : Nat → Resp EventsPage) :
    ∀ (N fuel : Nat) (cont : Option EventsPage) (nextTs : Int) (params : Params)
      (reqs : List Params) (idx : Nat) (lastResp : Option (Resp EventsPage)),
      nextTs ≠ 0 → N + 1 ≤ fuel →
      (∀ i, i < N → goodPage (server (idx + i))) → endPage (server (idx + N)) →
      (eventsLoop server fuel cont nextTs params reqs idx lastResp).isSome := by
  intro N
  induction N with
  | zero =>
    intro fuel cont nextTs params reqs idx lastResp hne hfuel _ hend
    obtain ⟨f, rfl⟩ : ∃ f, fuel = f + 1 := ⟨fuel - 1, by omega⟩
    rw [show idx + 0 = idx from rfl] at hend
    by_cases h200 : (server idx).status = 200
    · have hts : nextTsOf (server idx).body = 0 := by
        unfold nextTsOf
        rcases hend.2 with hs | hn | hz
        · exact absurd h200 hs
        · rw [hn]
        · rw [hz]
      have hr : http_get server idx = (idx + 1, .ok (server idx)) :=
        http_get_ok server idx hend.1 (by rw [h200]; omega)
      rw [eventsLoop_step_200 server f cont nextTs params reqs idx (idx + 1) lastResp
        (server idx) hne hr h200, hts, eventsLoop_exit]
      rfl
    · by_cases hh : 400 ≤ (server idx).status ∧ (server idx).status < 600
      · rw [eventsLoop_step_raise server f cont nextTs params reqs idx (idx + 1)
          lastResp _ hne (http_get_raise server idx hend.1 hh)]
        rfl
      · rw [eventsLoop_step_break server f cont nextTs params reqs idx (idx + 1)
          lastResp _ hne (http_get_ok server idx hend.1 hh) h200]
        rfl
  | succ N ih =>
    intro fuel cont nextTs params reqs idx lastResp hne hfuel hgood hend
    obtain ⟨f, rfl⟩ : ∃ f, fuel = f + 1 := ⟨fuel - 1, by omega⟩
    have hg0 : goodPage (server idx) := by
      have := hgood 0 (by omega)
      rwa [show idx + 0 = idx from rfl] at this
    have hr : http_get server idx = (idx + 1, .ok (server idx)) :=
      http_get_ok server idx (status200_not_retryable _ hg0.1) (goodPage_not_hook _ hg0)
    rw [eventsLoop_step_200 server f cont nextTs params reqs idx (idx + 1) lastResp
      (server idx) hne hr hg0.1]
    refine ih f _ _ _ _ (idx + 1) _ (goodPage_nextTs_ne _ hg0) (by omega) ?_ ?_
    · intro i hi
      have := hgood (i + 1) (by omega)
      rwa [show idx + (i + 1) = idx + 1 + i by omega] at this
    · rwa [show idx + 1 + N = idx + (N + 1) by omega]

/-- A server that always answers 200 with `nextPageTimestamp = c`. -/
def constServer (c : Int) : Nat → Resp EventsPage :=
  fun _ => ⟨200, ⟨[], some c⟩⟩

/-- Against `constServer c` with `c ≠ 0`, the loop never terminates: every
iteration is a 200 page handing back the nonzero timestamp `c`. -/
theorem eventsLoop_const_diverges (c : Int) (hc : c ≠ 0) :
    ∀ (fuel : Nat) (cont : Option EventsPage) (nextTs : Int) (params : Params)
      (reqs : List Params) (idx : Nat) (lastResp : Option (Resp EventsPage)),
      nextTs ≠ 0 →
      eventsLoop (constServer c) fuel cont nextTs params reqs idx lastResp = none := by
  intro fuel
  induction fuel with
  | zero =>
    intro cont nextTs params reqs idx lastResp hne
    exact eventsLoop_fuel_out (constServer c) cont nextTs params reqs idx lastResp hne
  | succ f ih =>
    intro cont nextTs params reqs idx lastResp hne
    have hr : http_get (constServer c) idx = (idx + 1, .ok (constServer c idx)) :=
      http_get_ok (constServer c) idx (status200_not_retryable _ rfl)
        (by rw [show (constServer c idx).status = 200 from rfl]; omega)
    rw [eventsLoop_step_200 (constServer c) f cont nextTs params reqs idx (idx + 1)
      lastResp (constServer c idx) hne hr rfl]
    exact ih _ _ _ _ _ _ (by simp [constServer, nextTsOf, hc])

theorem updStart_nonpos (params : Params) (t : Int) (h : t ≤ 0) :
    updStart params t = params := by
  unfold updStart
  rw [if_neg (by omega)]

theorem updStart_pos (params : Params) (t : Int) (h : 0 < t) :
    updStart params t = updA params "start" (.pint t) := by
  unfold updStart
  rw [if_pos h]

/-- A server serving exactly two successful pages: first
`{events: [1, 2], nextPageTimestamp: 100}`, then
`{events: [3], nextPageTimestamp: 0}` (requests past the second are not
issued by the loop). -/
def pagedServer : Nat → Resp EventsPage
  | 0 => ⟨200, ⟨[1, 2], some 100⟩⟩
  | _ + 1 => ⟨200, ⟨[3], some 0⟩⟩

/-- A concrete `get_report_events` call: `view='v'`,
`report_code='c'`, every optional argument left at `None`. -/
def argsA : EventsArgs :=
  { view := "v", report_code := "c", start_time := none, end_time := none,
    hostility := none, sourceid := none, sourceinstance := none,
    sourceclass := none, targetid := none, targetinstance := none,
    targetclass := none, abilityid := none, death := none, options := none,
    cutoff := none, encounter := none, wipes := none, filter_exp := none,
    translate := none }

/-- An empty cache state: the query directory does not exist. -/
def emptyFS : FS EventsPage := ⟨false, []⟩

/-- Claim C2: against a server serving exactly two successful pages
(`{events:[1,2], nextPageTimestamp:100}` then `{events:[3],
nextPageTimestamp:0}`), a cache-missing `get_report_events` call issues
exactly 2 HTTP requests (request log of length 2, attempt count 2), the
second carrying the cursor parameter `start` set to `100`, and returns a
payload whose `events` array is `[1, 2, 3]` (concatenated in page order,
no de-duplication); the merged payload is also written to the cache. -/
theorem c2_pagination_merge (key : String) (a : EventsArgs) (fs : FS EventsPage)
    (fuel : Nat) (hmiss : load_saved_query fs "events" a = .ok none)
    (hfuel : 2 ≤ fuel) :
    get_report_events key a fs pagedServer fuel =
      some (.ok (some ⟨[1, 2, 3], some 100⟩),
        save_query fs "events" a ⟨[1, 2, 3], some 100⟩,
        [eventsParams a key, updA (eventsParams a key) "start" (.pint 100)], 2) ∧
    lookupA (updA (eventsParams a key) "start" (.pint 100)) "start" =
      some (.pint 100) := by
  obtain ⟨f, rfl⟩ : ∃ f, fuel = f + 2 := ⟨fuel - 2, by omega⟩
  constructor
  · unfold get_report_events
    rw [hmiss]
    have hr0 : http_get pagedServer 0 = (1, .ok (pagedServer 0)) :=
      http_get_ok pagedServer 0 (by decide) (by decide)
    have hr1 : http_get pagedServer 1 = (2, .ok (pagedServer 1)) :=
      http_get_ok pagedServer 1 (by decide) (by decide)
    rw [show f + 2 = (f + 1) + 1 from rfl,
      eventsLoop_step_200 pagedServer (f + 1) none (-1) (eventsParams a key) []
        0 1 none (pagedServer 0) (by decide) hr0 rfl]
    rw [show mergeCont none (pagedServer 0).body = some ⟨[1, 2], some 100⟩ from rfl,
      show nextTsOf (pagedServer 0).body = 100 from rfl,
      updStart_nonpos (eventsParams a key) (-1) (by omega)]
    rw [eventsLoop_step_200 pagedServer f (some ⟨[1, 2], some 100⟩) 100
      ((eventsParams a key)) ([] ++ [eventsParams a key]) 1 2 (some (pagedServer 0))
      (pagedServer 1) (by decide) hr1 rfl]
    rw [show mergeCont (some ⟨[1, 2], some 100⟩) (pagedServer 1).body =
        some ⟨[1, 2, 3], some 100⟩ from rfl,
      show nextTsOf (pagedServer 1).body = 0 from rfl,
      updStart_pos (eventsParams a key) 100 (by omega)]
    rw [eventsLoop_exit]
    simp only [Option.map_some, List.nil_append]
    rfl
  · exact lookupA_updA_self (eventsParams a key) "start" (.pint 100)

/-- Witness for `c2_pagination_merge` at a concrete call. -/
theorem c2_pagination_merge_witness :
    get_report_events "k" argsA emptyFS pagedServer 2 =
      some (.ok (some ⟨[1, 2, 3], some 100⟩),
        save_query emptyFS "events" argsA ⟨[1, 2, 3], some 100⟩,
        [eventsParams argsA "k", updA (eventsParams argsA "k") "start" (.pint 100)], 2) ∧
    lookupA (updA (eventsParams argsA "k") "start" (.pint 100)) "start" =
      some (.pint 100) :=
  c2_pagination_merge "k" argsA emptyFS 2 (by rfl) (by omega)

/-- A server whose first response is a successful page continuing at
timestamp 100 and whose second response is HTTP 401. -/
def authFailServer : Nat → Resp EventsPage
  | 0 => ⟨200, ⟨[1, 2], some 100⟩⟩
  | _ + 1 => ⟨401, ⟨[], none⟩⟩

/-- Claim C3 (what the code actually does at the claimed scenario): when
the transport answers 401 at the second pagination step, the loop stops
immediately (exactly 2 requests) and the already-merged first page is
discarded (the result is an error and the cache state is untouched) —
but the error is the `requests.HTTPError` raised by the
`raise_for_status` response hook (source line 35), not
`ConnectionError("Renew authorization token.")`: the 401 branch of
`get_report_events` (source line 253-254) is unreachable, both because
the hook raises first and because `if resp:` is false for a 401
response. -/
theorem c3_auth_hook_raises (key : String) (a : EventsArgs) (fs : FS EventsPage)
    (fuel : Nat) (hmiss : load_saved_query fs "events" a = .ok none)
    (hfuel : 2 ≤ fuel) :
    get_report_events key a fs authFailServer fuel =
      some (.error (.httpStatusError 401), fs,
        [eventsParams a key, updA (eventsParams a key) "start" (.pint 100)], 2) ∧
    WErr.httpStatusError 401 ≠ WErr.authTokenError := by
  obtain ⟨f, rfl⟩ : ∃ f, fuel = f + 2 := ⟨fuel - 2, by omega⟩
  refine ⟨?_, by decide⟩
  unfold get_report_events
  rw [hmiss]
  have hr0 : http_get authFailServer 0 = (1, .ok (authFailServer 0)) :=
    http_get_ok authFailServer 0 (by decide) (by decide)
  have hr1 : http_get authFailServer 1 = (2, .error (.httpStatusError 401)) :=
    http_get_raise authFailServer 1 (by decide) (by decide)
  rw [show f + 2 = (f + 1) + 1 from rfl,
    eventsLoop_step_200 authFailServer (f + 1) none (-1) (eventsParams a key) []
      0 1 none (authFailServer 0) (by decide) hr0 rfl]
  rw [show mergeCont none (authFailServer 0).body = some ⟨[1, 2], some 100⟩ from rfl,
    show nextTsOf (authFailServer 0).body = 100 from rfl,
    updStart_nonpos (eventsParams a key) (-1) (by omega)]
  rw [eventsLoop_step_raise authFailServer f (some ⟨[1, 2], some 100⟩) 100
    (eventsParams a key) ([] ++ [eventsParams a key]) 1 2 (some (authFailServer 0))
    (.httpStatusError 401) (by decide) hr1]
  rw [updStart_pos (eventsParams a key) 100 (by omega)]
  simp only [Option.map_some, List.nil_append]
  rfl

/-- Witness for `c3_auth_hook_raises` at a concrete call. -/
theorem c3_auth_hook_raises_witness :
    get_report_events "k" argsA emptyFS authFailServer 2 =
      some (.error (.httpStatusError 401), emptyFS,
        [eventsParams argsA "k", updA (eventsParams argsA "k") "start" (.pint 100)], 2) ∧
    WErr.httpStatusError 401 ≠ WErr.authTokenError :=
  c3_auth_hook_raises "k" argsA emptyFS 2 (by rfl) (by omega)

/-- Claim C4: if page `N` fails (non-200, not retryable) after `N` good
pages, `get_report_events` yields an error, leaves the cache untouched
(the accumulated merge is discarded, nothing is written), and issued
exactly `N + 1` requests.  No truncated payload is ever returned. -/
theorem c4_no_partial_results (key : String) (a : EventsArgs) (fs : FS EventsPage)
    (server : Nat → Resp EventsPage) (fuel N : Nat)
    (hmiss : load_saved_query fs "events" a = .ok none) (hfuel : N + 1 ≤ fuel)
    (hgood : ∀ i, i < N → goodPage (server i)) (hfail : failPage (server N)) :
    ∃ e reqs, get_report_events key a fs server fuel =
      some (.error e, fs, reqs, N + 1) ∧ reqs.length = N + 1 := by
  have hgood' : ∀ i, i < N → goodPage (server (0 + i)) := by
    intro i hi; rw [Nat.zero_add]; exact hgood i hi
  have hfail' : failPage (server (0 + N)) := by rw [Nat.zero_add]; exact hfail
  obtain ⟨out, hout, hidx, hlen, hexit⟩ :=
    eventsLoop_fail_after server N fuel none (-1) (eventsParams a key) [] 0 none
      (by omega) hfuel hgood' hfail'
  rw [Nat.zero_add] at hidx
  simp only [List.length_nil, Nat.zero_add] at hlen
  unfold get_report_events
  rw [hmiss, hout]
  rcases hexit with ⟨e, hex⟩ | ⟨c, hex, hhook⟩
  · refine ⟨e, out.reqs, ?_, by omega⟩
    have hfin : eventsFinish fs a out = (.error e, fs, out.reqs, out.idx) := by
      unfold eventsFinish
      rw [hex]
    rw [show Option.map (eventsFinish fs a) (some out) = some (eventsFinish fs a out)
      from rfl, hfin, hidx]
  · rw [Nat.zero_add] at hex hhook
    have h401 : (server N).status ≠ 401 := by
      intro h
      exact hhook (by rw [h]; omega)
    refine ⟨.requestFailedError (server N).status, out.reqs, ?_, by omega⟩
    have ht : respTruthy (server N) = true := by
      unfold respTruthy
      rw [if_neg hhook]
    have hfin : eventsFinish fs a out =
        (.error (.requestFailedError (server N).status), fs, out.reqs, out.idx) := by
      unfold eventsFinish
      rw [hex]
      dsimp only
      rw [if_pos ht, if_neg hfail.1, if_neg h401]
    rw [show Option.map (eventsFinish fs a) (some out) = some (eventsFinish fs a out)
      from rfl, hfin, hidx]

/-- A server answering one good page and then HTTP 404. -/
def notFoundServer : Nat → Resp EventsPage
  | 0 => ⟨200, ⟨[1, 2], some 100⟩⟩
  | _ + 1 => ⟨404, ⟨[], none⟩⟩

/-- Witness for `c4_no_partial_results` at a concrete run (page 1 good,
page 2 answers 404). -/
theorem c4_no_partial_results_witness :
    ∃ e reqs, get_report_events "k" argsA emptyFS notFoundServer 2 =
      some (.error e, emptyFS, reqs, 2) ∧ reqs.length = 2 :=
  c4_no_partial_results "k" argsA emptyFS notFoundServer 2 1 (by rfl) (by omega)
    (by
      intro i hi
      have h0 : i = 0 := by omega
      rw [h0]
      decide)
    (by decide)

/-- A server answering HTTP 503 to every attempt. -/
def always503Server : Nat → Resp EventsPage := fun _ => ⟨503, ⟨[], none⟩⟩

/-- The spec-modelled retrying transport against an all-503 server makes
exactly 6 physical attempts and surfaces the last 503, which the
`raise_for_status` hook turns into an `HTTPError`. -/
theorem http_get_always503 :
    http_get always503Server 0 = (6, .error (.httpStatusError 503)) := rfl

/-- Claim C5 (what the code does under the spec-modelled retry bound):
against a server answering 503 to every attempt, a cache-missing
`get_report_events` call performs exactly 6 physical HTTP attempts
(`Retry(total=6, ...)`, §4.2: "6 total attempts", surfacing the last
outcome), and then raises — but what is raised is the `requests.HTTPError`
from the `raise_for_status` hook (source line 35) carrying status 503,
not the `ConnectionError` of the method body, which is unreachable for a
non-2xx final outcome. -/
theorem c5_retry_bound (key : String) (a : EventsArgs) (fs : FS EventsPage)
    (fuel : Nat) (hmiss : load_saved_query fs "events" a = .ok none)
    (hfuel : 1 ≤ fuel) :
    get_report_events key a fs always503Server fuel =
      some (.error (.httpStatusError 503), fs, [eventsParams a key], 6) := by
  obtain ⟨f, rfl⟩ : ∃ f, fuel = f + 1 := ⟨fuel - 1, by omega⟩
  unfold get_report_events
  rw [hmiss]
  rw [eventsLoop_step_raise always503Server f none (-1) (eventsParams a key) [] 0 6
    none (.httpStatusError 503) (by decide) http_get_always503]
  rw [updStart_nonpos (eventsParams a key) (-1) (by omega)]
  rfl

/-- Witness for `c5_retry_bound` at a concrete call. -/
theorem c5_retry_bound_witness :
    get_report_events "k" argsA emptyFS always503Server 1 =
      some (.error (.httpStatusError 503), emptyFS, [eventsParams argsA "k"], 6) :=
  c5_retry_bound "k" argsA emptyFS 1 (by rfl) (by omega)

/-- Claim C6: only `get_report_events` touches the cache.  (1) On a cache
hit it returns the cached payload with zero transport calls (empty
request log, zero attempts) and an unchanged cache.  (2)
`get_encounter_rankings` neither reads nor writes the cache: its result
is independent of the cache state, which is passed through unchanged;
(3)-(6) the same for the single-shot operations `get_guild_reports`,
`get_report_fights`, `get_report_tables` and `get_zones`. -/
theorem c6_cache_scope :
    (∀ (key : String) (a : EventsArgs) (fs : FS EventsPage)
       (server : Nat → Resp EventsPage) (fuel : Nat) (cont : EventsPage),
       load_saved_query fs "events" a = .ok (some cont) →
       get_report_events key a fs server fuel = some (.ok (some cont), fs, [], 0)) ∧
    (∀ (β : Type) (key : String) (ra : RankingsArgs) (fs fs' : FS β)
       (server : Nat → Resp RankingsPage) (fuel : Nat),
       get_encounter_rankings key ra fs server fuel =
         (get_encounter_rankings key ra fs' server fuel).map
           (fun o => (o.1, fs, o.2.2))) ∧
    (∀ (α β : Type) (k sn sr gn : String) (st et : Option Int) (fs fs' : FS β)
       (server : Nat → Resp α),
       get_guild_reports k sn sr gn st et fs server =
         ((get_guild_reports k sn sr gn st et fs' server).1, fs,
          (get_guild_reports k sn sr gn st et fs' server).2.2)) ∧
    (∀ (α β : Type) (k rc : String) (fs fs' : FS β) (server : Nat → Resp α),
       get_report_fights k rc fs server =
         ((get_report_fights k rc fs' server).1, fs,
          (get_report_fights k rc fs' server).2.2)) ∧
    (∀ (α β : Type) (k : String) (ta : TablesArgs) (fs fs' : FS β)
       (server : Nat → Resp α),
       get_report_tables k ta fs server =
         ((get_report_tables k ta fs' server).1, fs,
          (get_report_tables k ta fs' server).2.2)) ∧
    (∀ (α β : Type) (fs fs' : FS β) (server : Nat → Resp α),
       get_zones fs server = ((get_zones fs' server).1, fs, (get_zones fs' server).2.2)) := by
  refine ⟨?_, ?_, ?_, ?_, ?_, ?_⟩
  · intro key a fs server fuel cont h
    unfold get_report_events
    rw [h]
  · intro β key ra fs fs' server fuel
    unfold get_encounter_rankings
    rw [Option.map_map]
    rfl
  · intro α β k sn sr gn st et fs fs' server
    rfl
  · intro α β k rc fs fs' server
    rfl
  · intro α β k ta fs fs' server
    rfl
  · intro α β fs fs' server
    rfl

/-- A concrete events payload used by the cache-related witnesses. -/
def pageA : EventsPage := ⟨[5], none⟩

/-- Witness for `c6_cache_scope` (the conjunct with a hypothesis): a
cache hit returns the stored payload with zero transport calls. -/
theorem c6_cache_scope_witness :
    get_report_events "k" argsA (save_query emptyFS "events" argsA pageA)
      always503Server 3 =
      some (.ok (some pageA), save_query emptyFS "events" argsA pageA, [], 0) :=
  c6_cache_scope.1 "k" argsA (save_query emptyFS "events" argsA pageA)
    always503Server 3 pageA (by rfl)

/-- Claim C7: a cache file that exists but does not parse as JSON makes
`load_saved_query` raise (`json.load` propagates), and a
`get_report_events` call on such a cache raises that error without
issuing any HTTP request — the entry is not silently treated as a miss
and refetched. -/
theorem c7_malformed_cache_fails_fast (key : String) (a : EventsArgs)
    (fs : FS EventsPage) (server : Nat → Resp EventsPage) (fuel : Nat)
    (hdir : fs.dirExists = true)
    (hmal : lookupA fs.files (make_file_name "events" a) = some .malformed) :
    load_saved_query fs "events" a = .error .jsonDecodeError ∧
    get_report_events key a fs server fuel =
      some (.error .jsonDecodeError, fs, [], 0) := by
  have hload : load_saved_query fs "events" a = .error .jsonDecodeError := by
    simp [load_saved_query, hdir, hmal]
  refine ⟨hload, ?_⟩
  unfold get_report_events
  rw [hload]

/-- A cache directory holding a malformed file under the name
`make_file_name` derives for the `argsA` call. -/
def malformedFS : FS EventsPage :=
  ⟨true, [(make_file_name "events" argsA, .malformed)]⟩

/-- Witness for `c7_malformed_cache_fails_fast` at a concrete cache
state. -/
theorem c7_malformed_cache_fails_fast_witness :
    load_saved_query malformedFS "events" argsA = .error .jsonDecodeError ∧
    get_report_events "k" argsA malformedFS pagedServer 3 =
      some (.error .jsonDecodeError, malformedFS, [], 0) :=
  c7_malformed_cache_fails_fast "k" argsA malformedFS pagedServer 3 (by rfl) (by rfl)

/-- Claim C8: cache round trip — `save_query` followed by
`load_saved_query` with the same `query` and argument record returns
exactly the stored payload (for payloads of any type; JSON serialization
is faithful on the JSON-shaped payloads the client stores). -/
theorem c8_cache_round_trip (α : Type) (fs : FS α) (query : String)
    (a : EventsArgs) (payload : α) :
    load_saved_query (save_query fs query a payload) query a = .ok (some payload) := by
  unfold load_saved_query save_query
  dsimp only
  rw [lookupA_updA_self, if_pos rfl]

/-- Counterexample to claim C9 as stated: a server all of whose pages are
successful (status 200) with a *positive* `nextPageTimestamp` (100)
satisfies the claim's hypothesis ("each successful page's
nextPageTimestamp is positive, zero, or absent"), yet the loop never
terminates (the call diverges for every fuel): the server keeps handing
back the nonzero cursor 100 and the loop keeps re-requesting. -/
theorem c9_counterexample :
    (∀ i, (constServer 100 i).status = 200 →
      ((constServer 100 i).body.nextPageTimestamp = none ∨
       ∃ t, (constServer 100 i).body.nextPageTimestamp = some t ∧ 0 ≤ t)) ∧
    (∀ fuel, get_report_events "k" argsA emptyFS (constServer 100) fuel = none) := by
  constructor
  · intro i _
    exact Or.inr ⟨100, rfl, by omega⟩
  · intro fuel
    unfold get_report_events
    rw [show load_saved_query emptyFS "events" argsA = .ok none from rfl,
      eventsLoop_const_diverges 100 (by omega) fuel none (-1)
        (eventsParams argsA "k") [] 0 none (by omega)]
    rfl

/-- Claim C9 as amended: (1) the loop of `get_report_events` terminates
for every response sequence in which some page — after finitely many
successful pages with nonzero timestamps — is terminal (non-retryable
and either non-200, or 200 with `nextPageTimestamp` zero or absent);
(2) a server that always answers 200 with `nextPageTimestamp = -1`
diverges: the cursor parameter is updated only for a strictly positive
timestamp, so the identical request is re-issued forever (a constant
positive timestamp such as 100 diverges likewise, refuting the original
"positive" case). -/
theorem c9_termination_amended :
    (∀ (key : String) (a : EventsArgs) (fs : FS EventsPage)
       (server : Nat → Resp EventsPage) (N fuel : Nat),
       load_saved_query fs "events" a = .ok none → N + 1 ≤ fuel →
       (∀ i, i < N → goodPage (server i)) → endPage (server N) →
       (get_report_events key a fs server fuel).isSome) ∧
    (∀ fuel : Nat,
       get_report_events "k" argsA emptyFS (constServer (-1)) fuel = none) := by
  constructor
  · intro key a fs server N fuel hmiss hfuel hgood hend
    unfold get_report_events
    rw [hmiss]
    have hgood' : ∀ i, i < N → goodPage (server (0 + i)) := by
      intro i hi
      rw [Nat.zero_add]
      exact hgood i hi
    have hend' : endPage (server (0 + N)) := by
      rw [Nat.zero_add]
      exact hend
    have hsome := eventsLoop_term_after server N fuel none (-1) (eventsParams a key)
      [] 0 none (by omega) hfuel hgood' hend'
    obtain ⟨out, hout⟩ := Option.isSome_iff_exists.mp hsome
    rw [hout]
    rfl
  · intro fuel
    unfold get_report_events
    rw [show load_saved_query emptyFS "events" argsA = .ok none from rfl,
      eventsLoop_const_diverges (-1) (by omega) fuel none (-1)
        (eventsParams argsA "k") [] 0 none (by omega)]
    rfl

/-- A server whose very first page is terminal (200 with
`nextPageTimestamp` 0). -/
def endServer : Nat → Resp EventsPage := fun _ => ⟨200, ⟨[], some 0⟩⟩

/-- Witness for `c9_termination_amended` at concrete inputs. -/
theorem c9_termination_amended_witness :
    (get_report_events "k" argsA emptyFS endServer 1).isSome ∧
    get_report_events "k" argsA emptyFS (constServer (-1)) 5 = none :=
  ⟨c9_termination_amended.1 "k" argsA emptyFS endServer 0 1 (by rfl) (by omega)
     (fun i hi => absurd hi (by omega)) (by decide),
   c9_termination_amended.2 5⟩

theorem updIf_none {β : Type} (ps : List (String × β)) (k : String) :
    updIf ps k none = ps := rfl

theorem updIf_some {β : Type} (ps : List (String × β)) (k : String) (v : β) :
    updIf ps k (some v) = updA ps k v := rfl

/-- Claim C10: in `get_encounter_rankings` the wire parameter
`includeCombatantInfo` is always present (it is a `bool` defaulting to
`False`, never `None`, so its `is not None` guard always passes), with
value `False` for a call leaving every optional argument at its default;
every optional parameter whose default is `None` is omitted from the
request parameters when left at `None`. -/
theorem c10_rankings_params (ra : RankingsArgs) (key : String) :
    lookupA (rankingsParams ra key) "includeCombatantInfo" =
      some (.pbool ra.include_combatant_info) ∧
    (∀ eid : Int, lookupA (rankingsParams (defaultRankingsArgs eid) key)
      "includeCombatantInfo" = some (.pbool false)) ∧
    (ra.size = none → lookupA (rankingsParams ra key) "size" = none) ∧
    (ra.difficulty = none → lookupA (rankingsParams ra key) "difficulty" = none) ∧
    (ra.partition = none → lookupA (rankingsParams ra key) "partition" = none) ∧
    (ra.game_class = none → lookupA (rankingsParams ra key) "class" = none) ∧
    (ra.spec = none → lookupA (rankingsParams ra key) "spec" = none) ∧
    (ra.bracket = none → lookupA (rankingsParams ra key) "bracket" = none) ∧
    (ra.server = none → lookupA (rankingsParams ra key) "server" = none) ∧
    (ra.region = none → lookupA (rankingsParams ra key) "region" = none) ∧
    (ra.page = none → lookupA (rankingsParams ra key) "page" = none) ∧
    (ra.limit = none → lookupA (rankingsParams ra key) "limit" = none) ∧
    (ra.filter = none → lookupA (rankingsParams ra key) "filter" = none) := by
  refine ⟨?_, ?_, ?_, ?_, ?_, ?_, ?_, ?_, ?_, ?_, ?_, ?_, ?_⟩
  · simp [rankingsParams, lookupA_updA_ne, lookupA_updA_self]
  · intro eid
    simp [rankingsParams, defaultRankingsArgs, updIf_none, updIf_some,
      lookupA_updA_ne, lookupA_updA_self]
  all_goals
    intro h
    simp [rankingsParams, h, updIf_none, updIf_some, lookupA_updA_ne,
      lookupA_updIf_ne, lookupA]

/-- Witness for `c10_rankings_params` at the all-defaults call. -/
theorem c10_rankings_params_witness :
    lookupA (rankingsParams (defaultRankingsArgs 618) "k") "includeCombatantInfo" =
      some (.pbool false) ∧
    lookupA (rankingsParams (defaultRankingsArgs 618) "k") "size" = none ∧
    lookupA (rankingsParams (defaultRankingsArgs 618) "k") "page" = none :=
  ⟨(c10_rankings_params (defaultRankingsArgs 618) "k").2.1 618,
   (c10_rankings_params (defaultRankingsArgs 618) "k").2.2.1 rfl,
   (c10_rankings_params (defaultRankingsArgs 618) "k").2.2.2.2.2.2.2.2.1 rfl⟩

/-- A call passing only `hostility=1` (plus the required `view='v'`,
`report_code='c'`). -/
def argsHostility : EventsArgs := { argsA with hostility := some 1 }

/-- A call passing only `sourceid=1`. -/
def argsSourceid : EventsArgs := { argsA with sourceid := some 1 }

/-- Counterexample to claim C1 as stated: the calls `hostility=1` and
`sourceid=1` differ in a non-null parameter value (`hostility` is `1`
versus `None`), yet `make_file_name` maps both to the same cache file
name — skipping `None` arguments in the underscore-join collapses the
two keys to `wcl_events_c_1_v.json`. -/
theorem c1_counterexample :
    paramsVec argsHostility ≠ paramsVec argsSourceid ∧
    argsHostility.hostility = some 1 ∧ argsSourceid.hostility = none ∧
    make_file_name "events" argsHostility = make_file_name "events" argsSourceid := by
  refine ⟨by decide, rfl, rfl, by decide⟩

/-- Claim C1 as amended: (1) determinism — calls with the same parameter
values (`paramsVec`) get the same file name; (2) collision-freedom holds
only in restricted form — two calls whose joined component lists
(`nameComponents`) have the same length (e.g. the same pattern of
provided parameters), contain no underscore, and differ somewhere,
receive different file names.  In general, collision-freedom fails
(`c1_counterexample`). -/
theorem c1_cache_key_amended (query : String) (a b : EventsArgs) :
    (paramsVec a = paramsVec b → make_file_name query a = make_file_name query b) ∧
    ((nameComponents a).length = (nameComponents b).length →
     (∀ s ∈ nameComponents a, '_' ∉ s.data) →
     (∀ s ∈ nameComponents b, '_' ∉ s.data) →
     nameComponents a ≠ nameComponents b →
     make_file_name query a ≠ make_file_name query b) := by
  constructor
  · intro h
    rw [paramsVec_inj h]
  · intro hlen h1 h2 hne heq
    exact hne (joinUnderscore_inj _ _ hlen h1 h2 (make_file_name_eq_join query a b heq))

/-- A call passing only `start_time=1`. -/
def argsStart1 : EventsArgs := { argsA with start_time := some 1 }

/-- A call passing only `start_time=2`. -/
def argsStart2 : EventsArgs := { argsA with start_time := some 2 }

/-- Witness for `c1_cache_key_amended` at concrete calls: both conjuncts
applied with their hypotheses discharged. -/
theorem c1_cache_key_amended_witness :
    make_file_name "events" argsStart1 = make_file_name "events" argsStart1 ∧
    make_file_name "events" argsStart1 ≠ make_file_name "events" argsStart2 :=
  ⟨(c1_cache_key_amended "events" argsStart1 argsStart1).1 rfl,
   (c1_cache_key_amended "events" argsStart1 argsStart2).2 (by decide) (by decide)
     (by decide) (by decide)⟩
